import Mathlib

/-!
Shallow embedding of the OpenChamber agent orchestration engine
(`packages/web/server/lib/agent-messenger.js` and
`packages/web/server/lib/agent-isolation.js`), together with theorems
checking the specification's claims about message queues, retries,
durable persistence, the worker registry and the isolation engine.

JavaScript `Map` objects are modelled as association lists in insertion
order (a `Map` never holds a key twice; `set` on an existing key keeps
its position, `set` on a fresh key appends, `delete` removes it).
JavaScript numbers are modelled as `Rat` where fractional values matter
and as `Nat`/`Int` where the source only produces integers; machine
overflow is irrelevant at the magnitudes involved (counters below 2^53).
-/

namespace OpenChamber

/-! ### Association-list model of JavaScript `Map` -/

def alistGet {κ α : Type} [DecidableEq κ] (k : κ) : List (κ × α) → Option α
  | [] => none
  | p :: rest => if p.1 = k then some p.2 else alistGet k rest

def alistSet {κ α : Type} [DecidableEq κ] (k : κ) (v : α) : List (κ × α) → List (κ × α)
  | [] => [(k, v)]
  | p :: rest => if p.1 = k then (k, v) :: alistSet k v rest else p :: alistSet k v rest

def alistRemove {κ α : Type} [DecidableEq κ] (k : κ) : List (κ × α) → List (κ × α)
  | [] => []
  | p :: rest => if p.1 = k then alistRemove k rest else p :: alistRemove k rest

theorem alistGet_set_self {κ α : Type} [DecidableEq κ] (k : κ) (v : α)
    (l : List (κ × α)) : alistGet k (alistSet k v l) = some v := by
  induction l with
  | nil => simp [alistGet, alistSet]
  | cons p rest ih =>
    by_cases h : p.1 = k
    · simp [alistGet, alistSet, h]
    · simp [alistGet, alistSet, h, ih]

theorem alistGet_set_ne {κ α : Type} [DecidableEq κ] {k k' : κ} (v : α)
    (l : List (κ × α)) (h : k' ≠ k) :
    alistGet k' (alistSet k v l) = alistGet k' l := by
  have h' : k ≠ k' := Ne.symm h
  induction l with
  | nil => simp [alistGet, alistSet, h']
  | cons p rest ih =>
    by_cases hp : p.1 = k
    · have hpk' : p.1 ≠ k' := by rw [hp]; exact h'
      simp [alistGet, alistSet, hp, h', hpk', ih]
    · by_cases hp' : p.1 = k'
      · simp [alistGet, alistSet, hp, hp', h, h']
      · simp [alistGet, alistSet, hp, hp', ih]

theorem alistSet_length_le {κ α : Type} [DecidableEq κ] (k : κ) (v : α)
    (l : List (κ × α)) : (alistSet k v l).length ≤ l.length + 1 := by
  induction l with
  | nil => simp [alistSet]
  | cons p rest ih =>
    by_cases h : p.1 = k <;> simp [alistSet, h] <;> omega

theorem alistGet_remove_self {κ α : Type} [DecidableEq κ] (k : κ)
    (l : List (κ × α)) : alistGet k (alistRemove k l) = none := by
  induction l with
  | nil => simp [alistGet, alistRemove]
  | cons p rest ih =>
    by_cases h : p.1 = k
    · simp [alistRemove, h, ih]
    · simp [alistGet, alistRemove, h, ih]

theorem alistGet_remove_ne {κ α : Type} [DecidableEq κ] {k k' : κ}
    (l : List (κ × α)) (h : k' ≠ k) :
    alistGet k' (alistRemove k l) = alistGet k' l := by
  have h' : k ≠ k' := Ne.symm h
  induction l with
  | nil => simp [alistRemove]
  | cons p rest ih =>
    by_cases hp : p.1 = k
    · have hpk' : p.1 ≠ k' := by rw [hp]; exact h'
      simp [alistGet, alistRemove, hp, hpk', h, h', ih]
    · by_cases hp' : p.1 = k'
      · simp [alistGet, alistRemove, hp, hp', h, h']
      · simp [alistGet, alistRemove, hp, hp', ih]

/-! ### Message bus (`agent-messenger.js`, class `AgentMessenger`) -/

inductive MsgStatus where
  | pending
  | delivered
  | failed
  | retrying
deriving DecidableEq, BEq, Repr

def MAX_QUEUE_SIZE : Nat := 1000

def MAX_RETRIES : Nat := 3

def RETRY_DELAY_MS : Nat := 1000

/-- A message record as built by `createMessage`.  `id` models
`crypto.randomUUID()` as a natural number (the only property the code
relies on is freshness).  Timestamps are milliseconds as `Nat`. -/
structure Message where
  id : Nat
  msgType : String
  sourceAgentId : String
  targetAgentId : String
  worktree : Option String
  priority : Int
  status : MsgStatus
  retryCount : Nat
  error : Option String
  deliveredAt : Option Nat
  failedAt : Option Nat
deriving DecidableEq, Repr

/-- `getQueueKey(agentId, worktree)` returns `` `${worktree || "default"}:${agentId}` ``;
`worktree || "default"` yields `"default"` for every falsy worktree
(`null`, `undefined`, `""`). -/
def getQueueKey (agentId : String) (worktree : Option String) : String :=
  (match worktree with
    | some w => if w = "" then "default" else w
    | none => "default") ++ ":" ++ agentId

/-- The messenger's mutable state: `messageQueues` (`Map` key → array of
messages), the per-message durable files on disk keyed by message id
(contents of the persistence directory, one file per id), and
`retryTimers` (`Map` message id → armed delay in ms). -/
structure MessengerState where
  messageQueues : List (String × List Message)
  disk : List (Nat × Message)
  retryTimers : List (Nat × Nat)
deriving DecidableEq, Repr

/-- `persistMessage` writes (or overwrites) the message's own file. -/
def persistMessage (st : MessengerState) (m : Message) : MessengerState :=
  { st with disk := alistSet m.id m st.disk }

/-- `deletePersistedMessage` unlinks the message's file (missing file ignored). -/
def deletePersistedMessage (st : MessengerState) (mid : Nat) : MessengerState :=
  { st with disk := alistRemove mid st.disk }

/-- Events emitted by the messenger. -/
inductive MsgEvent where
  | queuedEv (m : Message)
  | deliveringEv (m : Message)
  | sendEv (m : Message)
  | deliveredEv (m : Message)
  | failedEv (m : Message)
  | errorEv (m : Message)
deriving DecidableEq, Repr

/-- Outcome of the pluggable delivery contract: the `message:send`
subscriber accepted the message (`{delivered: true}`), declined it, or
its handler threw with the given error message. -/
inductive DeliveryOutcome where
  | accepted
  | declined
  | threw (msg : String)
deriving DecidableEq, Repr

structure DeliverRes where
  state : MessengerState
  message : Message
  success : Bool
  events : List MsgEvent
deriving Repr

/-- `deliverMessage(message)`: emit `delivering` and `message:send`; on a
positive result mark delivered, persist, delete the durable file, emit
`delivered` and return true; otherwise return false (a thrown error also
records `message.error`, persists and emits `message:error`).  The
returned `message` is the in-place-mutated head object. -/
def deliverMessage (st : MessengerState) (m : Message) (outcome : DeliveryOutcome)
    (now : Nat) : DeliverRes :=
  match outcome with
  | .accepted =>
      let m' := { m with status := .delivered, deliveredAt := some now }
      let st1 := persistMessage st m'
      let st2 := deletePersistedMessage st1 m'.id
      { state := st2, message := m', success := true,
        events := [.deliveringEv m, .sendEv m, .deliveredEv m'] }
  | .declined =>
      { state := st, message := m, success := false,
        events := [.deliveringEv m, .sendEv m] }
  | .threw e =>
      let m' := { m with error := some e }
      let st1 := persistMessage st m'
      { state := st1, message := m', success := false,
        events := [.deliveringEv m, .sendEv m, .errorEv m'] }

def setQueue (st : MessengerState) (key : String) (q : List Message) : MessengerState :=
  { st with messageQueues := alistSet key q st.messageQueues }

structure StepRes where
  state : MessengerState
  events : List MsgEvent
  processed : Bool
deriving Repr

/-- One iteration of the inner loop of `processQueue` for the queue at
`key`: peek the head; shift it when already terminal; otherwise attempt
delivery.  Success shifts the head; failure with `retryCount >= MAX_RETRIES`
marks it failed, persists, emits `failed` and shifts; otherwise it is
marked retrying, its retry count incremented, persisted, and a timer of
`RETRY_DELAY_MS * 2 ^ (retryCount - 1)` armed unless one is already
pending for the id (the loop then breaks, leaving the head in place). -/
def processHead (st : MessengerState) (key : String) (outcome : DeliveryOutcome)
    (now : Nat) : StepRes :=
  match alistGet key st.messageQueues with
  | none => { state := st, events := [], processed := false }
  | some [] => { state := st, events := [], processed := false }
  | some (m :: rest) =>
    if m.status = .pending ∨ m.status = .retrying then
      let d := deliverMessage st m outcome now
      if d.success then
        { state := setQueue d.state key rest, events := d.events, processed := true }
      else if MAX_RETRIES ≤ d.message.retryCount then
        let m2 := { d.message with status := .failed, error := some "Max retries exceeded" }
        let st2 := persistMessage d.state m2
        { state := setQueue st2 key rest,
          events := d.events ++ [.failedEv m2], processed := true }
      else
        let m2 := { d.message with status := .retrying, retryCount := d.message.retryCount + 1 }
        let st2 := persistMessage d.state m2
        let delay := RETRY_DELAY_MS * 2 ^ (m2.retryCount - 1)
        let st3 :=
          if (alistGet m2.id st2.retryTimers).isSome then st2
          else { st2 with retryTimers := alistSet m2.id delay st2.retryTimers }
        { state := setQueue st3 key (m2 :: rest), events := d.events, processed := false }
    else
      { state := setQueue st key rest, events := [], processed := true }

/-- Replace the first message whose id matches (the JS code mutates the
found object in place). -/
def replaceFirst (mid : Nat) (m' : Message) : List Message → List Message
  | [] => []
  | m :: rest => if m.id = mid then m' :: rest else m :: replaceFirst mid m' rest

/-- Scan the queues in `Map` iteration order for the first message with
the given id, as `markDelivered` / `markFailed` do. -/
def findInQueues (mid : Nat) : List (String × List Message) → Option (String × Message)
  | [] => none
  | (k, q) :: rest =>
    match q.find? (fun m => m.id == mid) with
    | some m => some (k, m)
    | none => findInQueues mid rest

/-- The callback of the retry `setTimeout`: forget the timer and flip the
(still queued) message back to `pending`. -/
def fireRetryTimer (st : MessengerState) (mid : Nat) : MessengerState :=
  let st0 := { st with retryTimers := alistRemove mid st.retryTimers }
  match findInQueues mid st0.messageQueues with
  | none => st0
  | some (key, m) =>
    setQueue st0 key
      (replaceFirst mid { m with status := .pending }
        ((alistGet key st0.messageQueues).getD []))

structure MarkRes where
  state : MessengerState
  result : Option Message
  events : List MsgEvent
deriving Repr

/-- `markDelivered(messageId)`: clear any retry timer, find the message in
its queue, mark it delivered, persist, delete the durable file, emit
`delivered`.  The message is not removed from its queue. -/
def markDelivered (st : MessengerState) (mid : Nat) (now : Nat) : MarkRes :=
  let st0 := { st with retryTimers := alistRemove mid st.retryTimers }
  match findInQueues mid st0.messageQueues with
  | none => { state := st0, result := none, events := [] }
  | some (key, m) =>
    let m' := { m with status := .delivered, deliveredAt := some now }
    let st1 := setQueue st0 key
      (replaceFirst mid m' ((alistGet key st0.messageQueues).getD []))
    let st2 := deletePersistedMessage (persistMessage st1 m') mid
    { state := st2, result := some m', events := [.deliveredEv m'] }

/-- `error?.message || "Unknown error"` (an absent error object or an
empty — falsy — message string both fall back to "Unknown error"). -/
def errMessage (err : Option String) : String :=
  match err with
  | some s => if s = "" then "Unknown error" else s
  | none => "Unknown error"

/-- `markFailed(messageId, error)`: clear any retry timer, find the
message, mark it failed with `error?.message || "Unknown error"`, persist,
emit `failed`.  Neither the durable file nor the queue entry is removed. -/
def markFailed (st : MessengerState) (mid : Nat) (err : Option String)
    (now : Nat) : MarkRes :=
  let st0 := { st with retryTimers := alistRemove mid st.retryTimers }
  match findInQueues mid st0.messageQueues with
  | none => { state := st0, result := none, events := [] }
  | some (key, m) =>
    let m' := { m with status := .failed, error := some (errMessage err), failedAt := some now }
    let st1 := setQueue st0 key
      (replaceFirst mid m' ((alistGet key st0.messageQueues).getD []))
    let st2 := persistMessage st1 m'
    { state := st2, result := some m', events := [.failedEv m'] }

/-- Stable insertion by ascending priority (equal priorities keep their
existing relative order, the new element going before strictly greater
ones only). -/
def insertByPriority (m : Message) : List Message → List Message
  | [] => [m]
  | y :: ys =>
    if m.priority ≤ y.priority then m :: y :: ys else y :: insertByPriority m ys

/-- Models `queue.sort((a, b) => a.priority - b.priority)`:
`Array.prototype.sort` is stable (ECMAScript 2019), and a stable sort's
output is uniquely determined by the key order plus the input order, so
this stable insertion sort computes the same array. -/
def sortByPriority : List Message → List Message
  | [] => []
  | m :: ms => insertByPriority m (sortByPriority ms)

structure SendRes where
  state : MessengerState
  result : Except String Message
  events : List MsgEvent
deriving Repr

/-- `send(message)`: ensure the queue for the message's key exists; fail
when it already holds `MAX_QUEUE_SIZE` messages; otherwise push, re-sort
by priority, persist the message and emit `message:queued`. -/
def send (st : MessengerState) (m : Message) : SendRes :=
  let key := getQueueKey m.targetAgentId m.worktree
  let st0 :=
    if (alistGet key st.messageQueues).isSome then st
    else { st with messageQueues := alistSet key [] st.messageQueues }
  let queue := (alistGet key st0.messageQueues).getD []
  if MAX_QUEUE_SIZE ≤ queue.length then
    { state := st0,
      result := .error ("Message queue full for agent " ++ m.targetAgentId),
      events := [] }
  else
    let st1 := setQueue st0 key (sortByPriority (queue ++ [m]))
    let st2 := persistMessage st1 m
    { state := st2, result := .ok m, events := [.queuedEv m] }

/-! ### Supporting lemmas about `deliverMessage` -/

theorem deliverMessage_retryTimers (st : MessengerState) (m : Message)
    (outcome : DeliveryOutcome) (now : Nat) :
    (deliverMessage st m outcome now).state.retryTimers = st.retryTimers := by
  cases outcome <;> simp [deliverMessage, persistMessage, deletePersistedMessage]

theorem deliverMessage_fail_fields (st : MessengerState) (m : Message)
    (outcome : DeliveryOutcome) (now : Nat)
    (hfail : (deliverMessage st m outcome now).success = false) :
    (deliverMessage st m outcome now).message.retryCount = m.retryCount ∧
    (deliverMessage st m outcome now).message.id = m.id ∧
    (deliverMessage st m outcome now).message.status = m.status := by
  cases outcome <;> simp_all [deliverMessage]

/-! ### Claim theorems about the message bus -/

/-- C10: for every agent id, a message sent with no worktree and a message
sent with the literal worktree string "default" map to the same queue key,
so both share one queue, one capacity bound and one delivery order. -/
theorem c10_default_worktree_key_collision (agentId : String) :
    getQueueKey agentId none = getQueueKey agentId (some "default") := by
  simp [getQueueKey]

/-- C7: when the queue for a message's key already holds `MAX_QUEUE_SIZE`
(1000) messages, `send` fails with an error and leaves the queues, the
persisted state and the emitted events unchanged. -/
theorem c7_send_rejected_at_capacity (st : MessengerState) (m : Message)
    (q : List Message)
    (hq : alistGet (getQueueKey m.targetAgentId m.worktree) st.messageQueues = some q)
    (hfull : q.length = MAX_QUEUE_SIZE) :
    (send st m).state = st ∧
    (send st m).result = .error ("Message queue full for agent " ++ m.targetAgentId) ∧
    (send st m).events = [] := by
  simp [send, hq, hfull]

/-- C2 amended: in the drain loop, when delivery of the
pending-or-retrying head message fails and its retry count is below
`MAX_RETRIES` (3), the head is marked retrying with its count incremented
and persisted; a timer of `RETRY_DELAY_MS * 2 ^ retryCount`
(pre-increment count) is armed only when no retry timer is already
pending for the message id — an already-armed timer is left unchanged and
no new one is armed; firing the armed timer sets the message back to
pending.  When delivery fails and the retry count is at least 3, the head
is marked failed with reason "Max retries exceeded", persisted, a `failed`
event is emitted last, and the head is removed from its queue. -/
theorem c2_retry_amended
    (st : MessengerState) (key : String) (m : Message) (rest : List Message)
    (outcome : DeliveryOutcome) (now : Nat)
    (hq : alistGet key st.messageQueues = some (m :: rest))
    (hactive : m.status = .pending ∨ m.status = .retrying)
    (hfail : (deliverMessage st m outcome now).success = false) :
    (m.retryCount < MAX_RETRIES →
      alistGet key (processHead st key outcome now).state.messageQueues =
        some ({ (deliverMessage st m outcome now).message with
                status := .retrying, retryCount := m.retryCount + 1 } :: rest) ∧
      alistGet m.id (processHead st key outcome now).state.disk =
        some { (deliverMessage st m outcome now).message with
               status := .retrying, retryCount := m.retryCount + 1 } ∧
      (alistGet m.id st.retryTimers = none →
        alistGet m.id (processHead st key outcome now).state.retryTimers =
          some (RETRY_DELAY_MS * 2 ^ m.retryCount)) ∧
      (∀ t, alistGet m.id st.retryTimers = some t →
        alistGet m.id (processHead st key outcome now).state.retryTimers = some t)) ∧
    (MAX_RETRIES ≤ m.retryCount →
      alistGet key (processHead st key outcome now).state.messageQueues = some rest ∧
      alistGet m.id (processHead st key outcome now).state.disk =
        some { (deliverMessage st m outcome now).message with
               status := .failed, error := some "Max retries exceeded" } ∧
      (processHead st key outcome now).events =
        (deliverMessage st m outcome now).events ++
          [.failedEv { (deliverMessage st m outcome now).message with
                       status := .failed, error := some "Max retries exceeded" }]) ∧
    (∀ st2 k2 m2 rest2, m2.status = MsgStatus.retrying →
      alistGet k2 st2.messageQueues = some (m2 :: rest2) →
      findInQueues m2.id st2.messageQueues = some (k2, m2) →
      alistGet k2 (fireRetryTimer st2 m2.id).messageQueues =
        some ({ m2 with status := .pending } :: rest2) ∧
      alistGet m2.id (fireRetryTimer st2 m2.id).retryTimers = none) := by
  obtain ⟨hrc, hid, _⟩ := deliverMessage_fail_fields st m outcome now hfail
  refine ⟨?_, ?_, ?_⟩
  · intro hlt
    have hnotge : ¬ (MAX_RETRIES ≤ (deliverMessage st m outcome now).message.retryCount) := by
      rw [hrc]; omega
    have hnotge' : ¬ (MAX_RETRIES ≤ m.retryCount) := by omega
    cases htm : alistGet m.id st.retryTimers with
    | none =>
      have htimer2 :
          alistGet m.id (deliverMessage st m outcome now).state.retryTimers = none := by
        rw [deliverMessage_retryTimers]; exact htm
      refine ⟨?_, ?_, fun _ => ?_, fun t ht => ?_⟩
      · simp [processHead, hq, hactive, hfail, hnotge, hnotge', htimer2, setQueue,
          alistGet_set_self, persistMessage, hid, hrc]
      · simp [processHead, hq, hactive, hfail, hnotge, hnotge', htimer2, setQueue,
          alistGet_set_self, persistMessage, hid, hrc]
      · simp [processHead, hq, hactive, hfail, hnotge, hnotge', htimer2, setQueue,
          alistGet_set_self, persistMessage, hid, hrc]
      · exact Option.noConfusion ht
    | some t0 =>
      have htimer2 :
          alistGet m.id (deliverMessage st m outcome now).state.retryTimers = some t0 := by
        rw [deliverMessage_retryTimers]; exact htm
      refine ⟨?_, ?_, fun h => ?_, fun t ht => ?_⟩
      · simp [processHead, hq, hactive, hfail, hnotge, hnotge', htimer2, setQueue,
          alistGet_set_self, persistMessage, hid, hrc]
      · simp [processHead, hq, hactive, hfail, hnotge, hnotge', htimer2, setQueue,
          alistGet_set_self, persistMessage, hid, hrc]
      · exact Option.noConfusion h
      · obtain rfl : t0 = t := Option.some_injective _ ht
        simp [processHead, hq, hactive, hfail, hnotge, hnotge', htimer2, setQueue,
          persistMessage, deliverMessage_retryTimers, hid, hrc, htm]
  · intro hge
    have hge' : MAX_RETRIES ≤ (deliverMessage st m outcome now).message.retryCount := by
      rw [hrc]; exact hge
    simp [processHead, hq, hactive, hfail, hge', setQueue,
      alistGet_set_self, persistMessage, hid]
  · intro st2 k2 m2 rest2 _ hq2 hfind
    constructor
    · simp [fireRetryTimer, hfind, hq2, setQueue, replaceFirst, alistGet_set_self]
    · simp [fireRetryTimer, hfind, setQueue, alistGet_remove_self]

/-- Concrete message used by the witnesses below. -/
def mA : Message :=
  { id := 1, msgType := "task_assignment", sourceAgentId := "orchestrator",
    targetAgentId := "agent-1", worktree := none, priority := 2,
    status := .pending, retryCount := 0, error := none,
    deliveredAt := none, failedAt := none }

/-- Concrete messenger state: one queue holding `mA`, whose durable file
is on disk, no retry timers. -/
def stA : MessengerState :=
  { messageQueues := [("default:agent-1", [mA])], disk := [(1, mA)],
    retryTimers := [] }

/-- Concrete retrying head message whose retry timer is still pending. -/
def mC : Message :=
  { mA with status := .retrying, retryCount := 1 }

/-- Concrete messenger state in which a re-attempt of `mC` happens while
its first retry timer (1000 ms) has not yet fired. -/
def stC : MessengerState :=
  { messageQueues := [("default:agent-1", [mC])], disk := [(1, mC)],
    retryTimers := [(1, 1000)] }

/-- C2 counterexample: the head `mC` is retrying with retry count 1 and a
1000 ms timer already pending; its delivery fails again.  The head is
marked retrying with count 2, but no timer of
`RETRY_DELAY_MS * 2 ^ 1 = 2000` ms is armed — the `retryTimers.has`
guard leaves the pending 1000 ms timer as the only entry, so the claim's
unconditional "a timer of 1000ms · 2^(retryCount) is armed" fails here. -/
theorem c2_counterexample :
    alistGet "default:agent-1"
        (processHead stC "default:agent-1" .declined 11).state.messageQueues =
      some [{ mC with status := .retrying, retryCount := 2 }] ∧
    (processHead stC "default:agent-1" .declined 11).state.retryTimers = [(1, 1000)] ∧
    (1000 : Nat) ≠ RETRY_DELAY_MS * 2 ^ mC.retryCount := by
  decide

/-- Witness for the amended C2 at concrete states: a declined delivery of
`mA` (retry count 0, no pending timer) leaves it retrying at the head
with count 1, persisted, and arms a 1000 ms timer; a declined re-attempt
of `mC` (pending 1000 ms timer) leaves that timer unchanged. -/
theorem c2_witness :
    (alistGet "default:agent-1"
        (processHead stA "default:agent-1" .declined 7).state.messageQueues =
      some ({ (deliverMessage stA mA .declined 7).message with
              status := .retrying, retryCount := mA.retryCount + 1 } :: []) ∧
    alistGet mA.id (processHead stA "default:agent-1" .declined 7).state.disk =
      some { (deliverMessage stA mA .declined 7).message with
             status := .retrying, retryCount := mA.retryCount + 1 } ∧
    alistGet mA.id (processHead stA "default:agent-1" .declined 7).state.retryTimers =
      some (RETRY_DELAY_MS * 2 ^ mA.retryCount)) ∧
    alistGet mC.id (processHead stC "default:agent-1" .declined 11).state.retryTimers =
      some 1000 := by
  have h1 := c2_retry_amended stA "default:agent-1" mA []
    .declined 7 (by rfl) (Or.inl rfl) (by rfl)
  have h2 := c2_retry_amended stC "default:agent-1" mC []
    .declined 11 (by rfl) (Or.inr rfl) (by rfl)
  obtain ⟨hqu, hdisk, htnone, _⟩ := h1.1 (by decide)
  exact ⟨⟨hqu, hdisk, htnone (by rfl)⟩, (h2.1 (by decide)).2.2.2 1000 (by rfl)⟩

/-- Concrete messenger state whose only queue is at capacity. -/
def stFull : MessengerState :=
  { messageQueues := [("default:agent-1", List.replicate 1000 mA)],
    disk := [], retryTimers := [] }

/-- Witness for C7 at a concrete state: a queue of 1000 messages rejects
a further send and nothing changes. -/
theorem c7_witness :
    (send stFull mA).state = stFull ∧
    (send stFull mA).result = .error ("Message queue full for agent " ++ mA.targetAgentId) ∧
    (send stFull mA).events = [] := by
  have h := c7_send_rejected_at_capacity stFull mA (List.replicate 1000 mA)
    (by rfl) (by rw [List.length_replicate]; rfl)
  exact h

/-! ### Terminal transitions and the durable per-message file (C1) -/

theorem findInQueues_id (mid : Nat) (qs : List (String × List Message))
    (k : String) (m : Message) (h : findInQueues mid qs = some (k, m)) :
    m.id = mid := by
  induction qs with
  | nil => simp [findInQueues] at h
  | cons p rest ih =>
    rw [findInQueues] at h
    cases hf : List.find? (fun m => m.id == mid) p.2 with
    | none => rw [hf] at h; exact ih h
    | some mm =>
      rw [hf] at h
      have hpred := List.find?_some hf
      simp at h
      obtain ⟨_, hm⟩ := h
      subst hm
      simpa using hpred

theorem replaceFirst_length (mid : Nat) (m' : Message) (q : List Message) :
    (replaceFirst mid m' q).length = q.length := by
  induction q with
  | nil => rfl
  | cons m rest ih =>
    by_cases h : m.id = mid <;> simp [replaceFirst, h, ih]

/-- C1 counterexample: at a concrete state (`stA` holds message `mA`,
pending and persisted on disk), `markFailed` drives the message to the
terminal `failed` status, yet its durable file still exists afterwards
(re-written with status failed) and the message is still in its queue —
contradicting the claim that a terminal transition deletes the file and
removes the message from all queues. -/
theorem c1_counterexample :
    (Option.map Message.status
        ((markFailed stA 1 (some "delivery rejected") 9).result) =
      some MsgStatus.failed) ∧
    (Option.map Message.status
        (alistGet 1 (markFailed stA 1 (some "delivery rejected") 9).state.disk) =
      some MsgStatus.failed) ∧
    ((findInQueues 1
        (markFailed stA 1 (some "delivery rejected") 9).state.messageQueues).isSome
      = true) := by
  decide

/-- C1 amended: a message delivered by the drain loop has its durable file
deleted and is removed from its queue; a message failed by the drain loop
(max retries) is removed from its queue but its durable file is re-written
with status failed rather than deleted; `markDelivered` deletes the
durable file but leaves the message in its queue; `markFailed` re-writes
the durable file with status failed and leaves the message in its queue. -/
theorem c1_terminal_persistence_amended :
    (∀ st key m rest now,
      alistGet key st.messageQueues = some (m :: rest) →
      (m.status = MsgStatus.pending ∨ m.status = MsgStatus.retrying) →
      alistGet m.id (processHead st key .accepted now).state.disk = none ∧
      alistGet key (processHead st key .accepted now).state.messageQueues
        = some rest) ∧
    (∀ st key m rest outcome now,
      alistGet key st.messageQueues = some (m :: rest) →
      (m.status = MsgStatus.pending ∨ m.status = MsgStatus.retrying) →
      (deliverMessage st m outcome now).success = false →
      MAX_RETRIES ≤ m.retryCount →
      alistGet key (processHead st key outcome now).state.messageQueues
        = some rest ∧
      ∃ mf, alistGet m.id (processHead st key outcome now).state.disk = some mf ∧
        mf.status = MsgStatus.failed) ∧
    (∀ st mid now key m q,
      findInQueues mid st.messageQueues = some (key, m) →
      alistGet key st.messageQueues = some q →
      alistGet mid (markDelivered st mid now).state.disk = none ∧
      ∃ q', alistGet key (markDelivered st mid now).state.messageQueues = some q' ∧
        q'.length = q.length) ∧
    (∀ st mid err now key m q,
      findInQueues mid st.messageQueues = some (key, m) →
      alistGet key st.messageQueues = some q →
      (∃ mf, alistGet mid (markFailed st mid err now).state.disk = some mf ∧
        mf.status = MsgStatus.failed) ∧
      ∃ q', alistGet key (markFailed st mid err now).state.messageQueues = some q' ∧
        q'.length = q.length) := by
  refine ⟨?_, ?_, ?_, ?_⟩
  · intro st key m rest now hq hactive
    simp [processHead, hq, hactive, deliverMessage, persistMessage,
      deletePersistedMessage, setQueue, alistGet_set_self, alistGet_remove_self]
  · intro st key m rest outcome now hq hactive hfail hge
    obtain ⟨hrc, hid, _⟩ := deliverMessage_fail_fields st m outcome now hfail
    have hge' : MAX_RETRIES ≤ (deliverMessage st m outcome now).message.retryCount := by
      rw [hrc]; exact hge
    refine ⟨?_, ?_⟩
    · simp [processHead, hq, hactive, hfail, hge', setQueue, alistGet_set_self]
    · refine ⟨{ (deliverMessage st m outcome now).message with
          status := MsgStatus.failed, error := some "Max retries exceeded" }, ?_, rfl⟩
      simp [processHead, hq, hactive, hfail, hge', setQueue,
        persistMessage, hid, alistGet_set_self]
  · intro st mid now key m q hfind hq
    have hid := findInQueues_id mid st.messageQueues key m hfind
    refine ⟨?_, ?_⟩
    · simp [markDelivered, hfind, setQueue, persistMessage,
        deletePersistedMessage, alistGet_remove_self]
    · refine ⟨replaceFirst mid { m with status := MsgStatus.delivered, deliveredAt := some now } q,
        ?_, replaceFirst_length _ _ _⟩
      simp [markDelivered, hfind, hq, setQueue, persistMessage,
        deletePersistedMessage, alistGet_set_self]
  · intro st mid err now key m q hfind hq
    have hid := findInQueues_id mid st.messageQueues key m hfind
    refine ⟨⟨{ m with status := MsgStatus.failed, error := some (errMessage err), failedAt := some now },
        ?_, rfl⟩, ?_⟩
    · simp [markFailed, hfind, setQueue, persistMessage, hid, alistGet_set_self]
    · refine ⟨replaceFirst mid { m with status := MsgStatus.failed, error := some (errMessage err), failedAt := some now } q,
        ?_, replaceFirst_length _ _ _⟩
      simp [markFailed, hfind, hq, setQueue, persistMessage, alistGet_set_self]

/-- Concrete message already at the retry ceiling. -/
def mB : Message :=
  { mA with id := 2, retryCount := 3 }

/-- Concrete messenger state holding `mB` at its queue head. -/
def stB : MessengerState :=
  { messageQueues := [("default:agent-1", [mB])], disk := [(2, mB)],
    retryTimers := [] }

/-- Witness for the amended C1 at concrete states: a delivered head has
its file deleted and leaves the queue; a max-retries failure leaves the
queue but keeps a failed-status file; `markDelivered` / `markFailed` keep
the message queued. -/
theorem c1_amended_witness :
    (alistGet mA.id (processHead stA "default:agent-1" .accepted 3).state.disk = none ∧
      alistGet "default:agent-1"
        (processHead stA "default:agent-1" .accepted 3).state.messageQueues
        = some []) ∧
    (alistGet "default:agent-1"
        (processHead stB "default:agent-1" .declined 4).state.messageQueues
        = some [] ∧
      ∃ mf, alistGet mB.id (processHead stB "default:agent-1" .declined 4).state.disk
          = some mf ∧ mf.status = MsgStatus.failed) ∧
    (alistGet 1 (markDelivered stA 1 5).state.disk = none ∧
      ∃ q', alistGet "default:agent-1" (markDelivered stA 1 5).state.messageQueues
          = some q' ∧ q'.length = [mA].length) ∧
    ((∃ mf, alistGet 1 (markFailed stA 1 (some "boom") 6).state.disk = some mf ∧
        mf.status = MsgStatus.failed) ∧
      ∃ q', alistGet "default:agent-1" (markFailed stA 1 (some "boom") 6).state.messageQueues
          = some q' ∧ q'.length = [mA].length) := by
  obtain ⟨h1, h2, h3, h4⟩ := c1_terminal_persistence_amended
  exact ⟨h1 stA "default:agent-1" mA [] 3 (by rfl) (Or.inl rfl),
    h2 stB "default:agent-1" mB [] .declined 4 (by rfl) (Or.inl rfl) (by rfl)
      (by decide),
    h3 stA 1 5 "default:agent-1" mA [mA] (by rfl) (by rfl),
    h4 stA 1 (some "boom") 6 "default:agent-1" mA [mA] (by rfl) (by rfl)⟩

/-! ### Queue ordering (C3): priority ascending, FIFO within a priority

`send` assigns each message a fresh id (`crypto.randomUUID()`); the
driver below models a sequence of sends by numbering messages in enqueue
order, so "FIFO by enqueue order" is "ascending id among equal
priorities". -/

/-- Strict target order of a queue: ascending priority, and ascending
enqueue id within a priority level. -/
def lexLt (a b : Message) : Prop :=
  a.priority < b.priority ∨ (a.priority = b.priority ∧ a.id < b.id)

/-- Input-order discipline: whenever two messages carry the same
priority, the earlier one has the smaller enqueue id. -/
def eqPrioIdLt (a b : Message) : Prop :=
  a.priority = b.priority → a.id < b.id

theorem mem_insertByPriority {y m : Message} {l : List Message} :
    y ∈ insertByPriority m l ↔ y = m ∨ y ∈ l := by
  induction l with
  | nil => simp [insertByPriority]
  | cons z zs ih =>
    by_cases h : m.priority ≤ z.priority
    · simp [insertByPriority, h]
    · simp [insertByPriority, h, ih]
      tauto

theorem mem_sortByPriority {y : Message} {l : List Message} :
    y ∈ sortByPriority l ↔ y ∈ l := by
  induction l with
  | nil => simp [sortByPriority]
  | cons z zs ih =>
    simp [sortByPriority, mem_insertByPriority, ih]

theorem pairwise_insertByPriority {m : Message} {l : List Message}
    (hl : l.Pairwise lexLt) (hm : ∀ y ∈ l, eqPrioIdLt m y) :
    (insertByPriority m l).Pairwise lexLt := by
  induction l with
  | nil => simp [insertByPriority]
  | cons z zs ih =>
    rw [List.pairwise_cons] at hl
    obtain ⟨hz, hzs⟩ := hl
    by_cases h : m.priority ≤ z.priority
    · rw [insertByPriority, if_pos h, List.pairwise_cons]
      refine ⟨?_, List.pairwise_cons.mpr ⟨hz, hzs⟩⟩
      intro y hy
      rcases List.mem_cons.mp hy with rfl | hymem
      · rcases lt_or_eq_of_le h with hlt | heq
        · exact Or.inl hlt
        · exact Or.inr ⟨heq, hm _ (List.mem_cons_self _ _) heq⟩
      · rcases hz y hymem with hlt | ⟨heq, _⟩
        · rcases lt_or_eq_of_le h with h2 | h2
          · exact Or.inl (lt_trans h2 hlt)
          · exact Or.inl (h2 ▸ hlt)
        · rcases lt_or_eq_of_le h with h2 | h2
          · exact Or.inl (h2.trans_eq heq)
          · exact Or.inr ⟨h2.trans heq, hm y (List.mem_cons_of_mem _ hymem) (h2.trans heq)⟩
    · rw [insertByPriority, if_neg h, List.pairwise_cons]
      push_neg at h
      refine ⟨?_, ih hzs (fun y hy => hm y (List.mem_cons_of_mem _ hy))⟩
      intro y hy
      rcases mem_insertByPriority.mp hy with hy | hy
      · subst hy
        exact Or.inl h
      · exact hz y hy

theorem pairwise_sortByPriority {l : List Message}
    (hl : l.Pairwise eqPrioIdLt) : (sortByPriority l).Pairwise lexLt := by
  induction l with
  | nil => simp [sortByPriority]
  | cons z zs ih =>
    rw [List.pairwise_cons] at hl
    obtain ⟨hz, hzs⟩ := hl
    rw [sortByPriority]
    exact pairwise_insertByPriority (ih hzs)
      (fun y hy => hz y (mem_sortByPriority.mp hy))

theorem lexLt_imp_eqPrioIdLt {a b : Message} (h : lexLt a b) : eqPrioIdLt a b := by
  intro heq
  rcases h with h | ⟨_, h⟩
  · exact absurd heq (ne_of_lt h)
  · exact h

/-- The driver numbering messages by enqueue order: `sendFresh` stamps the
next fresh id on a message (as `createMessage` does with a fresh UUID)
and runs `send`. -/
structure DriverState where
  st : MessengerState
  nextId : Nat

def sendFresh (d : DriverState) (m : Message) : DriverState :=
  { st := (send d.st { m with id := d.nextId }).state, nextId := d.nextId + 1 }

def sendAll (d : DriverState) (ms : List Message) : DriverState :=
  ms.foldl sendFresh d

/-- Every queue is sorted by ascending priority and, within a priority,
FIFO by enqueue order (ascending enqueue id), and every queued id is
below the next fresh id. -/
def messengerInv (d : DriverState) : Prop :=
  ∀ key q, alistGet key d.st.messageQueues = some q →
    q.Pairwise lexLt ∧ ∀ m ∈ q, m.id < d.nextId

theorem sendFresh_preserves (d : DriverState) (m : Message)
    (hinv : messengerInv d) : messengerInv (sendFresh d m) := by
  intro key q hq
  set m' : Message := { m with id := d.nextId } with hm'
  set k : String := getQueueKey m'.targetAgentId m'.worktree with hk
  by_cases hmem : (alistGet k d.st.messageQueues).isSome
  · -- the key already exists: `st0 = st`
    obtain ⟨q0, hq0⟩ := Option.isSome_iff_exists.mp hmem
    obtain ⟨hq0sorted, hq0ids⟩ := hinv k q0 hq0
    by_cases hfull : MAX_QUEUE_SIZE ≤ q0.length
    · -- rejected: queues unchanged
      have hstate : (send d.st m').state = d.st := by
        simp [send, ← hk, hq0, hfull]
      rw [sendFresh] at hq
      simp only [hstate] at hq
      obtain ⟨hs, hi⟩ := hinv key q hq
      exact ⟨hs, fun x hx => Nat.lt_succ_of_lt (hi x hx)⟩
    · -- accepted: the target queue is re-sorted with the new message
      have hstate : (send d.st m').state =
          persistMessage (setQueue d.st k (sortByPriority (q0 ++ [m']))) m' := by
        simp [send, ← hk, hq0, hfull]
      rw [sendFresh] at hq
      simp only [hstate, persistMessage, setQueue] at hq
      by_cases hkey : key = k
      · subst hkey
        rw [alistGet_set_self] at hq
        obtain rfl : sortByPriority (q0 ++ [m']) = q := by
          exact Option.some_injective _ hq
        constructor
        · apply pairwise_sortByPriority
          rw [List.pairwise_append]
          refine ⟨hq0sorted.imp lexLt_imp_eqPrioIdLt, List.pairwise_singleton _ _, ?_⟩
          intro a ha b hb _
          rw [List.mem_singleton] at hb
          subst hb
          exact hq0ids a ha
        · intro x hx
          rcases (mem_sortByPriority.mp hx |> List.mem_append.mp) with hx | hx
          · exact Nat.lt_succ_of_lt (hq0ids x hx)
          · rw [List.mem_singleton] at hx
            subst hx
            exact Nat.lt_succ_self _
      · rw [alistGet_set_ne _ _ hkey] at hq
        obtain ⟨hs, hi⟩ := hinv key q hq
        exact ⟨hs, fun x hx => Nat.lt_succ_of_lt (hi x hx)⟩
  · -- fresh key: an empty queue is created, then the message inserted
    rw [Option.not_isSome_iff_eq_none] at hmem
    have hstate : (send d.st m').state =
        persistMessage
          (setQueue { d.st with messageQueues := alistSet k [] d.st.messageQueues }
            k (sortByPriority ([] ++ [m']))) m' := by
      simp [send, ← hk, hmem, alistGet_set_self, MAX_QUEUE_SIZE]
    rw [sendFresh] at hq
    simp only [hstate, persistMessage, setQueue] at hq
    by_cases hkey : key = k
    · subst hkey
      rw [alistGet_set_self] at hq
      obtain rfl : sortByPriority ([] ++ [m']) = q := Option.some_injective _ hq
      constructor
      · simp [sortByPriority, insertByPriority]
      · intro x hx
        simp [sortByPriority, insertByPriority] at hx
        subst hx
        exact Nat.lt_succ_self _
    · rw [alistGet_set_ne _ _ hkey, alistGet_set_ne _ _ hkey] at hq
      obtain ⟨hs, hi⟩ := hinv key q hq
      exact ⟨hs, fun x hx => Nat.lt_succ_of_lt (hi x hx)⟩

/-- C3: after any sequence of `send` operations, every queue is sorted by
ascending numeric priority and, among messages of equal priority, FIFO by
enqueue order.  (`send` appends then re-sorts; `Array.prototype.sort` is
stable, modelled by the stable insertion sort `sortByPriority`.) -/
theorem c3_queues_sorted_fifo (d : DriverState) (ms : List Message)
    (hinv : messengerInv d) : messengerInv (sendAll d ms) := by
  induction ms generalizing d with
  | nil => exact hinv
  | cons m rest ih =>
    exact ih (sendFresh d m) (sendFresh_preserves d m hinv)

/-- Empty driver state: the messenger's constructor state and id counter 0. -/
def d0 : DriverState :=
  { st := { messageQueues := [], disk := [], retryTimers := [] }, nextId := 0 }

/-- Witness for C3: starting from the empty messenger, the invariant holds
after a concrete sequence of sends (two NORMAL, one CRITICAL message). -/
theorem c3_witness :
    messengerInv (sendAll d0 [mA, { mA with priority := 0 }, mA]) := by
  refine c3_queues_sorted_fifo d0 _ ?_
  intro key q hq
  simp [d0, alistGet] at hq

/-! ### Isolation engine (`agent-isolation.js`, class `AgentIsolation`) -/

def MAX_CONCURRENT_AGENTS : Nat := 10

def AGENT_TIMEOUT_MS : Nat := 30 * 60 * 1000

def AGENT_MEMORY_LIMIT_MB : ℚ := 512

def RESOURCE_CHECK_INTERVAL : Nat := 5000

/-- Per-agent resource monitor record (`startResourceMonitoring`). -/
structure MonitorSt where
  startTime : Nat
  maxMemory : ℚ
  cpuSamples : List ℚ
deriving DecidableEq, Repr

/-- The isolation engine's mutable state: `activeProcesses` (agent id →
pid) and `resourceMonitors` (agent id → monitor). -/
structure IsolationState where
  activeProcesses : List (String × Nat)
  resourceMonitors : List (String × MonitorSt)
  isMonitoring : Bool
deriving DecidableEq, Repr

/-- Result of `spawnWorktreeAgent` (in `git-worktree-service.js`). -/
structure WorktreeAgent where
  id : String
  worktreePath : String
  branchName : String
deriving DecidableEq, Repr

/-- Environment of one `spawnAgentInIsolation` call: the outcomes of the
two external calls it makes, `spawnWorktreeAgent` (worktree creation) and
`startAgentProcess` (child spawn, yielding a pid). -/
structure SpawnEnv where
  worktreeResult : Except String WorktreeAgent
  processResult : Except String Nat
deriving Repr

structure SpawnSuccess where
  agentId : String
  pid : Nat
  worktreePath : String
  branchName : String
  status : String
deriving DecidableEq, Repr

/-- Observable outcome of `spawnAgentInIsolation`: the new state, which
worktrees were created during the call, which agents were marked failed
(`failAgent`), and the returned value or thrown error. -/
structure SpawnOut where
  state : IsolationState
  worktreesCreated : List String
  failedAgents : List String
  result : Except String SpawnSuccess
deriving Repr

/-- `startResourceMonitoring(agentId, childProcess)`: no-op for a falsy
pid, otherwise install a fresh monitor and set `isMonitoring`. -/
def startResourceMonitoring (st : IsolationState) (agentId : String) (pid : Nat)
    (now : Nat) : IsolationState :=
  if pid = 0 then st
  else
    { st with
      resourceMonitors :=
        alistSet agentId { startTime := now, maxMemory := 0, cpuSamples := [] }
          st.resourceMonitors,
      isMonitoring := true }

/-- `spawnAgentInIsolation(params)`: reject at the concurrency cap before
anything else; otherwise create the worktree, spawn the child, record the
handle, install handlers and monitoring.  A worktree-creation failure
rethrows with no agent to fail; a process-start failure rethrows after
`failAgent(agentId)`. -/
def spawnAgentInIsolation (st : IsolationState) (env : SpawnEnv) (now : Nat) : SpawnOut :=
  if MAX_CONCURRENT_AGENTS ≤ st.activeProcesses.length then
    { state := st, worktreesCreated := [], failedAgents := [],
      result := .error ("Maximum concurrent agents (" ++ toString MAX_CONCURRENT_AGENTS ++ ") reached") }
  else
    match env.worktreeResult with
    | .error e =>
        { state := st, worktreesCreated := [], failedAgents := [], result := .error e }
    | .ok agent =>
        match env.processResult with
        | .error e =>
            { state := st, worktreesCreated := [agent.id],
              failedAgents := [agent.id], result := .error e }
        | .ok pid =>
            let st1 := { st with activeProcesses := alistSet agent.id pid st.activeProcesses }
            let st2 := startResourceMonitoring st1 agent.id pid now
            { state := st2, worktreesCreated := [agent.id], failedAgents := [],
              result := .ok ⟨agent.id, pid, agent.worktreePath, agent.branchName, "active"⟩ }

/-- A memory/CPU sample as produced by `getProcessStats` (fractional MB
after rounding; JS numbers modelled as rationals). -/
structure ResourceStats where
  pid : Nat
  memoryMB : ℚ
  cpuPercent : ℚ
deriving DecidableEq, Repr

/-- The body of `checkResources` in `startResourceMonitoring`: fold the
sample into the monitor (peak memory, CPU ring of 60) and, when the
measured memory exceeds `AGENT_MEMORY_LIMIT_MB`, trigger
`terminateAgent(agentId, reason)`; the triggered reason string is
returned. -/
def checkResources (monitor : MonitorSt) (stats : ResourceStats) :
    MonitorSt × Option String :=
  let samples := monitor.cpuSamples ++ [stats.cpuPercent]
  let monitor1 :=
    { monitor with
      maxMemory := max monitor.maxMemory stats.memoryMB,
      cpuSamples := if 60 < samples.length then samples.drop 1 else samples }
  if AGENT_MEMORY_LIMIT_MB < stats.memoryMB then
    (monitor1, some "memory_limit_exceeded")
  else
    (monitor1, none)

/-- `stopResourceMonitoring(agentId)`: drop the monitor; clear
`isMonitoring` when none remain. -/
def stopResourceMonitoring (st : IsolationState) (agentId : String) : IsolationState :=
  match alistGet agentId st.resourceMonitors with
  | none => st
  | some _ =>
    let monitors := alistRemove agentId st.resourceMonitors
    { st with
      resourceMonitors := monitors,
      isMonitoring := if monitors.length = 0 then false else st.isMonitoring }

/-- Terminal mark applied to the worker record on child exit.
`completeAgent` / `failAgent` live in `git-worktree-service.js`, which is
not part of the sources here; their effect on the worker is modelled from
the spec: "mark the worker `completed` (exit 0) or `failed` (otherwise)
with cause string". -/
inductive WorkerMark where
  | completedMark (exitCode : Int)
  | failedMark (cause : String)
deriving DecidableEq, Repr

/-- JS template-literal rendering of the nullable exit code (`null`
prints as "null"). -/
def showExitCode : Option Int → String
  | some n => toString n
  | none => "null"

/-- JS template-literal rendering of the nullable signal. -/
def showSignal : Option String → String
  | some s => s
  | none => "null"

/-- The `exit` handler installed by `setupProcessHandlers`: cancel the
timeout, remove the process handle, stop monitoring, emit `agent:exit`,
then `completeAgent(agentId, {exitCode: 0})` when the exit code is 0 and
otherwise `failAgent` with an error recording the code and the signal. -/
def handleProcessExit (st : IsolationState) (agentId : String)
    (code : Option Int) (signal : Option String) : IsolationState × WorkerMark :=
  let st1 := { st with activeProcesses := alistRemove agentId st.activeProcesses }
  let st2 := stopResourceMonitoring st1 agentId
  if code = some 0 then
    (st2, .completedMark 0)
  else
    (st2, .failedMark ("Process exited with code " ++ showExitCode code ++
      ", signal: " ++ showSignal signal))

/-! ### Claim theorems about the isolation engine -/

/-- C4: `spawnAgentInIsolation` fails with the capacity error whenever the
active-process count is already at `MAX_CONCURRENT_AGENTS` (10), in that
case before any worktree is created or any state changes; and a spawn
never takes the active count above 10. -/
theorem c4_concurrency_cap (st : IsolationState) (env : SpawnEnv) (now : Nat)
    (hcap : st.activeProcesses.length ≤ MAX_CONCURRENT_AGENTS) :
    (st.activeProcesses.length = MAX_CONCURRENT_AGENTS →
      (spawnAgentInIsolation st env now).result =
        .error ("Maximum concurrent agents (" ++ toString MAX_CONCURRENT_AGENTS ++ ") reached") ∧
      (spawnAgentInIsolation st env now).state = st ∧
      (spawnAgentInIsolation st env now).worktreesCreated = []) ∧
    (spawnAgentInIsolation st env now).state.activeProcesses.length ≤ MAX_CONCURRENT_AGENTS := by
  constructor
  · intro hfull
    have h10 : MAX_CONCURRENT_AGENTS ≤ st.activeProcesses.length := le_of_eq hfull.symm
    simp [spawnAgentInIsolation, h10]
  · by_cases hfull : MAX_CONCURRENT_AGENTS ≤ st.activeProcesses.length
    · simp [spawnAgentInIsolation, hfull]
      exact hcap
    · cases hw : env.worktreeResult with
      | error e => simp [spawnAgentInIsolation, hfull, hw]; exact hcap
      | ok agent =>
        cases hp : env.processResult with
        | error e => simp [spawnAgentInIsolation, hfull, hw, hp]; exact hcap
        | ok pid =>
          have hlt : st.activeProcesses.length < MAX_CONCURRENT_AGENTS := by omega
          by_cases hpid : pid = 0
          · have hlen := alistSet_length_le agent.id 0 st.activeProcesses
            simp [spawnAgentInIsolation, hfull, hw, hp, startResourceMonitoring, hpid]
            omega
          · have hlen := alistSet_length_le agent.id pid st.activeProcesses
            simp [spawnAgentInIsolation, hfull, hw, hp, startResourceMonitoring, hpid]
            omega

/-- Concrete isolation state with ten active workers (at the cap). -/
def stTen : IsolationState :=
  { activeProcesses :=
      [("agent-0", 100), ("agent-1", 101), ("agent-2", 102), ("agent-3", 103),
       ("agent-4", 104), ("agent-5", 105), ("agent-6", 106), ("agent-7", 107),
       ("agent-8", 108), ("agent-9", 109)],
    resourceMonitors := [], isMonitoring := false }

/-- Concrete call environment in which both external calls would succeed. -/
def envA : SpawnEnv :=
  { worktreeResult := .ok ⟨"agent-10", "/wt/agent-10", "agent/branch-10"⟩,
    processResult := .ok 4242 }

/-- Witness for C4: the eleventh spawn against ten active workers fails
with the capacity error, changes nothing, and creates no worktree. -/
theorem c4_witness :
    (spawnAgentInIsolation stTen envA 0).result =
      .error ("Maximum concurrent agents (" ++ toString MAX_CONCURRENT_AGENTS ++ ") reached") ∧
    (spawnAgentInIsolation stTen envA 0).state = stTen ∧
    (spawnAgentInIsolation stTen envA 0).worktreesCreated = [] := by
  have h := c4_concurrency_cap stTen envA 0 (by decide)
  exact h.1 (by decide)

/-- C5 counterexample: at a concrete sample of 513 MB the monitor triggers
termination with reason "memory_limit_exceeded", which is not the reason
string "memory_limit" the claim states. -/
theorem c5_counterexample :
    (checkResources ⟨0, 0, []⟩ ⟨4242, 513, 1⟩).2 = some "memory_limit_exceeded" ∧
    "memory_limit_exceeded" ≠ "memory_limit" := by
  constructor
  · have h : AGENT_MEMORY_LIMIT_MB < (513 : ℚ) := by
      rw [AGENT_MEMORY_LIMIT_MB]; norm_num
    simp [checkResources, h]
  · decide

/-- C5 amended: whenever a resource sample measures memory strictly above
`AGENT_MEMORY_LIMIT_MB` (512 MB), the monitor triggers termination of the
worker with reason "memory_limit_exceeded"; at or below the limit no
termination is triggered. -/
theorem c5_memory_limit_amended (monitor : MonitorSt) (stats : ResourceStats) :
    (AGENT_MEMORY_LIMIT_MB < stats.memoryMB →
      (checkResources monitor stats).2 = some "memory_limit_exceeded") ∧
    (¬ AGENT_MEMORY_LIMIT_MB < stats.memoryMB →
      (checkResources monitor stats).2 = none) := by
  constructor <;> intro h <;> simp [checkResources, h]

/-- Witness for the amended C5: a 600 MB sample triggers the
memory-limit termination, a 100 MB sample does not. -/
theorem c5_amended_witness :
    (checkResources ⟨0, 0, []⟩ ⟨7, 600, 2⟩).2 = some "memory_limit_exceeded" ∧
    (checkResources ⟨0, 0, []⟩ ⟨7, 100, 2⟩).2 = none := by
  constructor
  · exact (c5_memory_limit_amended ⟨0, 0, []⟩ ⟨7, 600, 2⟩).1
      (by rw [AGENT_MEMORY_LIMIT_MB]; norm_num)
  · exact (c5_memory_limit_amended ⟨0, 0, []⟩ ⟨7, 100, 2⟩).2
      (by rw [AGENT_MEMORY_LIMIT_MB]; norm_num)

theorem stopResourceMonitoring_active (st : IsolationState) (agentId : String) :
    (stopResourceMonitoring st agentId).activeProcesses = st.activeProcesses := by
  unfold stopResourceMonitoring
  cases alistGet agentId st.resourceMonitors <;> simp

/-- C6: on a child-process exit event the worker is marked completed if
and only if the exit code is 0; any other exit (non-zero code, or a
null code with a signal) marks it failed with a cause recording the exit
code and the signal, and the process handle is removed either way. -/
theorem c6_exit_code_semantics (st : IsolationState) (agentId : String)
    (code : Option Int) (signal : Option String) :
    ((∃ c, (handleProcessExit st agentId code signal).2 = .completedMark c) ↔
      code = some 0) ∧
    (code ≠ some 0 →
      (handleProcessExit st agentId code signal).2 =
        .failedMark ("Process exited with code " ++ showExitCode code ++
          ", signal: " ++ showSignal signal)) ∧
    alistGet agentId (handleProcessExit st agentId code signal).1.activeProcesses = none := by
  refine ⟨?_, ?_, ?_⟩
  · by_cases h : code = some 0 <;> simp [handleProcessExit, h]
  · intro h
    simp [handleProcessExit, h]
  · by_cases h : code = some 0 <;>
      simp [handleProcessExit, h, stopResourceMonitoring_active, alistGet_remove_self]

/-- Witness for C6: exit code 1 with SIGKILL is marked failed with both
recorded; exit code 0 is marked completed. -/
theorem c6_witness :
    (handleProcessExit stTen "agent-1" (some 1) (some "SIGKILL")).2 =
      .failedMark ("Process exited with code " ++ showExitCode (some 1) ++
        ", signal: " ++ showSignal (some "SIGKILL")) ∧
    (∃ c, (handleProcessExit stTen "agent-1" (some 0) none).2 = .completedMark c) := by
  constructor
  · exact (c6_exit_code_semantics stTen "agent-1" (some 1) (some "SIGKILL")).2.1 (by decide)
  · exact (c6_exit_code_semantics stTen "agent-1" (some 0) none).1.mpr rfl

/-! ### Worker registry (`agent-messenger.js`, class `AgentRegistry`)

Registry entries come from `JSON.parse`, so field values are dynamic;
`JsVal` embeds the JavaScript values the registry code inspects with
`typeof` / `Array.isArray`.  Keys of a parsed object are unique. -/

inductive JsVal where
  | str (s : String)
  | num (q : ℚ)
  | boolVal (b : Bool)
  | nullVal
  | undefVal
  | arr (elems : List JsVal)
  | obj (props : List (String × JsVal))

/-- JavaScript `String.prototype.trim`: strip whitespace from both ends. -/
def jsTrim (s : String) : String :=
  String.mk (((s.data.dropWhile Char.isWhitespace).reverse.dropWhile
    Char.isWhitespace).reverse)

namespace AgentRegistry

def MAX_REGISTRY_SIZE : Nat := 1000

def VALID_STATUSES : List String :=
  ["pending", "active", "completed", "failed", "terminating"]

/-- Property access `raw.key` on a parsed object (absent → `undefined`). -/
def getProp (props : List (String × JsVal)) (key : String) : JsVal :=
  match props.find? (fun p => p.1 == key) with
  | some p => p.2
  | none => .undefVal

/-- `typeof raw === "object" && raw` — `null` and primitives fail the
guard in `normalizeAgentData`; an array is `typeof "object"` but carries
no named properties. -/
def propsOf : JsVal → Option (List (String × JsVal))
  | .obj props => some props
  | .arr _ => some []
  | _ => none

/-- `typeof x === "string" ? x.trim() : ""`. -/
def strField : JsVal → String
  | .str s => jsTrim s
  | _ => ""

/-- `typeof x === "number" && x > 0 ? x : null`. -/
def posNumField : JsVal → Option ℚ
  | .num q => if 0 < q then some q else none
  | _ => none

/-- `typeof x === "number" ? x : null`. -/
def numField : JsVal → Option ℚ
  | .num q => some q
  | _ => none

/-- `Array.isArray(x) && x.every(s => typeof s === "string")`. -/
def asStringList : JsVal → Option (List String)
  | .arr xs => xs.mapM (fun x => match x with | .str s => some s | _ => none)
  | _ => none

/-- `typeof x === "object" && x !== null ? x : \x7b\x7d`. -/
def objField : JsVal → JsVal
  | .obj props => .obj props
  | .arr xs => .arr xs
  | _ => .obj []

/-- A normalized worker record as produced by `normalizeAgentData`. -/
structure AgentRecord where
  id : String
  worktree : String
  branch : String
  status : String
  skillset : List String
  persona : String
  pid : Option ℚ
  startTime : Option ℚ
  endTime : Option ℚ
  exitCode : Option ℚ
  exitSignal : Option String
  metadata : JsVal

/-- `normalizeAgentData(raw)`: trim the string fields, validate the
skillset shape, and reject records without an id, without a worktree or
with an unknown status. -/
def normalizeAgentData (raw : JsVal) : Option AgentRecord :=
  match propsOf raw with
  | none => none
  | some f =>
    let id := strField (getProp f "id")
    let worktree := strField (getProp f "worktree")
    let status := strField (getProp f "status")
    if id = "" ∨ worktree = "" ∨ ¬ status ∈ VALID_STATUSES then none
    else
      some
        { id := id, worktree := worktree,
          branch := strField (getProp f "branch"),
          status := status,
          skillset := (match asStringList (getProp f "skillset") with
            | some ss => ss.map jsTrim
            | none => []),
          persona := strField (getProp f "persona"),
          pid := posNumField (getProp f "pid"),
          startTime := posNumField (getProp f "startTime"),
          endTime := posNumField (getProp f "endTime"),
          exitCode := numField (getProp f "exitCode"),
          exitSignal := (match getProp f "exitSignal" with
            | .str s => some s
            | _ => none),
          metadata := objField (getProp f "metadata") }

def REGISTRY_MAX_AGE_MS : ℚ := 24 * 60 * 60 * 1000

def isTerminatedStatus (s : String) : Bool :=
  s == "completed" || s == "failed" || s == "terminating"

/-- `cleanupOldAgents()`: prune terminal-status records older than 24
hours (by `endTime`, or now when unset). -/
def cleanupOldAgents (agents : List (String × AgentRecord)) (now : ℚ) :
    List (String × AgentRecord) :=
  agents.filter (fun p =>
    !(isTerminatedStatus p.2.status &&
      decide (REGISTRY_MAX_AGE_MS < now - ((p.2.endTime).getD now))))

/-- `register(agentData)`: normalize (rejecting invalid data), prune when
at the size ceiling, default the start timestamp
(`normalized.startTime || Date.now()`; a normalized start time is
positive, so only `null` is replaced) and insert.  Event emission is not
modelled. -/
def register (agents : List (String × AgentRecord)) (raw : JsVal) (now : ℚ) :
    Except String (List (String × AgentRecord) × AgentRecord) :=
  match normalizeAgentData raw with
  | none => .error "Invalid agent data"
  | some n0 =>
    let agents1 :=
      if MAX_REGISTRY_SIZE ≤ agents.length then cleanupOldAgents agents now
      else agents
    let n := { n0 with startTime := some ((n0.startTime).getD now) }
    .ok (alistSet n.id n agents1, n)

/-- `unregister(id)`: remove and return the record, or do nothing. -/
def unregister (agents : List (String × AgentRecord)) (id : String) :
    List (String × AgentRecord) × Option AgentRecord :=
  match alistGet id agents with
  | none => (agents, none)
  | some a => (alistRemove id agents, some a)

/-- `get(id)`: `this.agents.get(id) || null`. -/
def get (agents : List (String × AgentRecord)) (id : String) : Option AgentRecord :=
  alistGet id agents

/-- What `loadFromDisk` observes of the registry file: the read threw
(`ENOENT` or another error), `JSON.parse` threw, or a parsed value. -/
inductive DiskRead where
  | readError (enoent : Bool)
  | parseError
  | parsed (v : JsVal)

/-- One entry of the parsed array: keep it when it normalizes, skip it
otherwise. -/
def loadStep (m : List (String × AgentRecord)) (e : JsVal) :
    List (String × AgentRecord) :=
  match normalizeAgentData e with
  | some a => alistSet a.id a m
  | none => m

/-- `loadFromDisk()`: any read or parse failure, and any parsed value
that is not an array, resets the map to empty; an array is folded entry
by entry, skipping entries that fail normalization. -/
def loadFromDisk (input : DiskRead) : List (String × AgentRecord) :=
  match input with
  | .readError _ => []
  | .parseError => []
  | .parsed (.arr entries) => entries.foldl loadStep []
  | .parsed _ => []

def isArr : JsVal → Bool
  | .arr _ => true
  | _ => false

end AgentRegistry

theorem foldl_loadStep_filter (entries : List JsVal) :
    ∀ acc, entries.foldl AgentRegistry.loadStep acc =
      (entries.filter (fun e => (AgentRegistry.normalizeAgentData e).isSome)).foldl
        AgentRegistry.loadStep acc := by
  induction entries with
  | nil => intro acc; rfl
  | cons e rest ih =>
    intro acc
    by_cases h : (AgentRegistry.normalizeAgentData e).isSome
    · simp only [List.foldl_cons, List.filter_cons, h, if_true]
      exact ih _
    · have hnone : AgentRegistry.normalizeAgentData e = none :=
        Option.not_isSome_iff_eq_none.mp h
      simp only [List.foldl_cons, List.filter_cons, h, if_false,
        AgentRegistry.loadStep, hnone]
      exact ih acc

/-- C8: for every raw record accepted by `normalizeAgentData`, `register`
followed by `get` on its id returns the normalized record (with the start
timestamp defaulted), and a subsequent `unregister` followed by `get`
returns `none`. -/
theorem c8_register_roundtrip (agents : List (String × AgentRegistry.AgentRecord))
    (raw : JsVal) (now : ℚ) (n : AgentRegistry.AgentRecord)
    (hn : AgentRegistry.normalizeAgentData raw = some n) :
    ∃ agents',
      AgentRegistry.register agents raw now =
        .ok (agents', { n with startTime := some ((n.startTime).getD now) }) ∧
      AgentRegistry.get agents' n.id =
        some { n with startTime := some ((n.startTime).getD now) } ∧
      AgentRegistry.get (AgentRegistry.unregister agents' n.id).1 n.id = none := by
  refine ⟨alistSet n.id { n with startTime := some ((n.startTime).getD now) }
      (if AgentRegistry.MAX_REGISTRY_SIZE ≤ agents.length
        then AgentRegistry.cleanupOldAgents agents now else agents), ?_, ?_, ?_⟩
  · simp [AgentRegistry.register, hn]
  · simp [AgentRegistry.get, alistGet_set_self]
  · simp [AgentRegistry.unregister, AgentRegistry.get, alistGet_set_self,
      alistGet_remove_self]

/-- Concrete raw registry entry. -/
def rawA : JsVal :=
  .obj [("id", .str "w1"), ("worktree", .str "/repo/wt/w1"), ("status", .str "active")]

/-- The record `normalizeAgentData` produces for `rawA`. -/
def recA : AgentRegistry.AgentRecord :=
  { id := "w1", worktree := "/repo/wt/w1", branch := "", status := "active",
    skillset := [], persona := "", pid := none, startTime := none,
    endTime := none, exitCode := none, exitSignal := none,
    metadata := JsVal.obj [] }

/-- Witness for C8 on the empty registry and `rawA`. -/
theorem c8_witness :
    ∃ agents',
      AgentRegistry.register [] rawA 1700 =
        .ok (agents', { recA with startTime := some ((recA.startTime).getD 1700) }) ∧
      AgentRegistry.get agents' recA.id =
        some { recA with startTime := some ((recA.startTime).getD 1700) } ∧
      AgentRegistry.get (AgentRegistry.unregister agents' recA.id).1 recA.id = none :=
  c8_register_roundtrip [] rawA 1700 recA (by rfl)

/-- C9: `loadFromDisk` never aborts the load: every read error and parse
error, and every parsed value that is not an array, resets the map to
empty; and entries of an array that fail normalization are skipped —
filtering them away changes nothing. -/
theorem c9_load_never_throws :
    (∀ e, AgentRegistry.loadFromDisk (.readError e) = []) ∧
    (AgentRegistry.loadFromDisk .parseError = []) ∧
    (∀ v, AgentRegistry.isArr v = false → AgentRegistry.loadFromDisk (.parsed v) = []) ∧
    (∀ entries, AgentRegistry.loadFromDisk (.parsed (.arr entries)) =
      AgentRegistry.loadFromDisk (.parsed (.arr (entries.filter
        (fun e => (AgentRegistry.normalizeAgentData e).isSome))))) := by
  refine ⟨fun e => rfl, rfl, ?_, ?_⟩
  · intro v hv
    cases v <;> simp_all [AgentRegistry.isArr, AgentRegistry.loadFromDisk]
  · intro entries
    simpa [AgentRegistry.loadFromDisk] using foldl_loadStep_filter entries []

/-- Witness for C9: a failed read, a non-array value, and an array with a
junk entry all load without aborting. -/
theorem c9_witness :
    AgentRegistry.loadFromDisk (.readError true) = [] ∧
    AgentRegistry.loadFromDisk (.parsed (.num 5)) = [] ∧
    AgentRegistry.loadFromDisk (.parsed (.arr [rawA, .nullVal])) =
      AgentRegistry.loadFromDisk (.parsed (.arr ([rawA, .nullVal].filter
        (fun e => (AgentRegistry.normalizeAgentData e).isSome)))) := by
  obtain ⟨h1, _, h3, h4⟩ := c9_load_never_throws
  exact ⟨h1 true, h3 (.num 5) (by rfl), h4 [rawA, .nullVal]⟩

end OpenChamber
